import Mathlib

/-!
Shallow embedding of `src/main.py` (cska_ics): a scraper that turns a
football club's fixture table into an iCalendar text file.  Python strings
are Lean `String`s; Python `datetime.date` / `datetime.time` /
`datetime.datetime` become explicit record types; fallible operations
return `Option` (or a three-way `BuildResult` distinguishing an uncaught
exception from a caught-and-skipped validation failure).
-/

namespace CskaIcs

/-- `CSKA = "ЦСКА"` from the source (the tracked club). -/
def CSKA : String := "ЦСКА"

/-- `SPORTS_RU_HOME = "дома"` from the source (localized "home" marker). -/
def SPORTS_RU_HOME : String := "дома"

/-- `MATCH_DURATION_MIN = 120` from the source. -/
def MATCH_DURATION_MIN : Nat := 120

/-- `VCALENDAR_HEADER` literal from the source. -/
def VCALENDAR_HEADER : String := "\nBEGIN:VCALENDAR\nVERSION:2.0"

/-- `VCALENDAR_FOOTER` literal from the source. -/
def VCALENDAR_FOOTER : String := "\nEND:VCALENDAR\n"

/-- Decimal digits of a natural number, little-endian, with explicit fuel so
that the definition is structurally recursive and evaluates by `decide`/`rfl`.
`natDigitsAux fuel n` is the digit list of `n` provided `n ≤ fuel`. -/
def natDigitsAux : Nat → Nat → List Nat
  | 0, _ => []
  | fuel + 1, n => if n = 0 then [] else n % 10 :: natDigitsAux fuel (n / 10)

/-- Little-endian decimal digits of `n` (empty for `0`). -/
def natDigits (n : Nat) : List Nat := natDigitsAux n n

/-- Value of a little-endian digit list. -/
def ofDigits : List Nat → Nat
  | [] => 0
  | d :: ds => d + 10 * ofDigits ds

/-- The character for a single decimal digit. -/
def digitChar (d : Nat) : Char := Char.ofNat (48 + d)

/-- Python `str(n)` for a natural number: decimal rendering. -/
def natRepr (n : Nat) : String :=
  if n = 0 then "0" else ⟨((natDigits n).map digitChar).reverse⟩

/-- Embedding of Python `datetime.date`: the validated field triple. -/
structure MDate where
  year : Nat
  month : Nat
  day : Nat
deriving DecidableEq, Repr

/-- Embedding of Python `datetime.time` (the program only ever sees
whole-second times, microseconds are always zero). -/
structure MTime where
  hour : Nat
  minute : Nat
  second : Nat
deriving DecidableEq, Repr

/-- Embedding of Python `datetime.datetime` as produced by
`datetime.combine(date, time)`. -/
structure MDateTime where
  date : MDate
  time : MTime
deriving DecidableEq, Repr

/-- `datetime.combine(d, t)` from the source. -/
def combine (d : MDate) (t : MTime) : MDateTime := ⟨d, t⟩

/-- Python `datetime` comparison: lexicographic on
(year, month, day, hour, minute, second). -/
def dtLt (a b : MDateTime) : Bool :=
  decide (a.date.year < b.date.year) ||
    (decide (a.date.year = b.date.year) &&
      (decide (a.date.month < b.date.month) ||
        (decide (a.date.month = b.date.month) &&
          (decide (a.date.day < b.date.day) ||
            (decide (a.date.day = b.date.day) &&
              (decide (a.time.hour < b.time.hour) ||
                (decide (a.time.hour = b.time.hour) &&
                  (decide (a.time.minute < b.time.minute) ||
                    (decide (a.time.minute = b.time.minute) &&
                      decide (a.time.second < b.time.second))))))))))

/-- Injective linearization of a valid datetime onto the number line, used
to state "strictly after" as an ordinary `<` on `Nat`. -/
def dtKey (a : MDateTime) : Nat :=
  ((((a.date.year * 13 + a.date.month) * 32 + a.date.day) * 24 + a.time.hour)
      * 60 + a.time.minute) * 60 + a.time.second

/-- Field bounds every calendar-valid datetime satisfies (a valid month is
at most 12, a valid day at most 31, and so on). -/
def dtValid (a : MDateTime) : Prop :=
  a.date.month ≤ 12 ∧ a.date.day ≤ 31 ∧ a.time.hour < 24 ∧
    a.time.minute < 60 ∧ a.time.second < 60

instance (a : MDateTime) : Decidable (dtValid a) := by
  unfold dtValid
  exact inferInstance

/-- Embedding of the pydantic `Match` model from the source. -/
structure Match where
  home_team : String
  away_team : String
  date : MDate
  time : Option MTime
  tournament : String
deriving DecidableEq, Repr

/-- `Match.get_uid` from the source:
`f"{self.tournament}_{self.home_team}_{self.away_team}_{self.date.year}"`. -/
def Match.get_uid (m : Match) : String :=
  m.tournament ++ "_" ++ m.home_team ++ "_" ++ m.away_team ++ "_"
    ++ natRepr m.date.year

/-- `Match.get_summary` from the source:
`f"{self.home_team} - {self.away_team} ({self.tournament})"`. -/
def Match.get_summary (m : Match) : String :=
  m.home_team ++ " - " ++ m.away_team ++ " (" ++ m.tournament ++ ")"

/-- `Match.in_future` from the source.  `NOW` is a module-level constant in
the source; here it is the explicit `now` argument.  Python `not self.time`
is true exactly when `time` is `None` (all `datetime.time` values are truthy
since Python 3.5). -/
def Match.in_future (m : Match) (now : MDateTime) : Bool :=
  match m.time with
  | none => false
  | some t => dtLt now (combine m.date t)

/-- Python `str.lower` on one character, modelled on the alphabets the
program compares (ASCII and Cyrillic, the Unicode simple case mapping);
other characters are left unchanged. -/
def pyLowerChar (c : Char) : Char :=
  if 65 ≤ c.toNat ∧ c.toNat ≤ 90 then Char.ofNat (c.toNat + 32)
  else if 0x410 ≤ c.toNat ∧ c.toNat ≤ 0x42F then Char.ofNat (c.toNat + 0x20)
  else if c.toNat = 0x401 then Char.ofNat 0x451
  else c

/-- Python `str.lower`. -/
def pyLower (s : String) : String := ⟨s.data.map pyLowerChar⟩

/-- The date rearrangement from the source:
`f"{match_date[6:]}-{match_date[3:5]}-{match_date[:2]}"`, with Python
slices embedded as `List.drop`/`List.take` (both total, like slicing). -/
def reformatDate (s : String) : String :=
  (⟨s.data.drop 6⟩ : String) ++ "-" ++ (⟨(s.data.drop 3).take 2⟩ : String)
    ++ "-" ++ (⟨s.data.take 2⟩ : String)

/-- Python `str.split(sep)` for a one-character separator. -/
def splitOnChar (sep : Char) : List Char → List (List Char)
  | [] => [[]]
  | c :: cs =>
    if c = sep then [] :: splitOnChar sep cs
    else
      match splitOnChar sep cs with
      | [] => [[c]]
      | r :: rs => (c :: r) :: rs

/-- Numeric value of a decimal digit character. -/
def digitVal (c : Char) : Nat := c.toNat - 48

/-- Gregorian leap-year rule, as `datetime.date` validation uses it. -/
def isLeap (y : Nat) : Bool := y % 4 = 0 && (y % 100 ≠ 0 || y % 400 = 0)

/-- Days in a month, as `datetime.date` validation uses it. -/
def daysInMonth (y m : Nat) : Nat :=
  if m = 2 then (if isLeap y then 29 else 28)
  else if m = 4 ∨ m = 6 ∨ m = 9 ∨ m = 11 then 30
  else 31

/-- pydantic's parse of a `date` field from a string: the canonical
`YYYY-MM-DD` form with calendar validation (`datetime.date` bounds). -/
def parseDate (s : String) : Option MDate :=
  match s.data with
  | [y1, y2, y3, y4, s1, m1, m2, s2, d1, d2] =>
    if y1.isDigit && y2.isDigit && y3.isDigit && y4.isDigit
        && decide (s1 = '-') && m1.isDigit && m2.isDigit
        && decide (s2 = '-') && d1.isDigit && d2.isDigit then
      let y := ((digitVal y1 * 10 + digitVal y2) * 10 + digitVal y3) * 10
        + digitVal y4
      let mo := digitVal m1 * 10 + digitVal m2
      let d := digitVal d1 * 10 + digitVal d2
      if 1 ≤ y ∧ 1 ≤ mo ∧ mo ≤ 12 ∧ 1 ≤ d ∧ d ≤ daysInMonth y mo then
        some ⟨y, mo, d⟩
      else none
    else none
  | _ => none

/-- pydantic's parse of a `time` field from a string: `HH:MM` or
`HH:MM:SS` with field bounds. -/
def parseTime (s : String) : Option MTime :=
  match s.data with
  | [h1, h2, c1, m1, m2] =>
    if h1.isDigit && h2.isDigit && decide (c1 = ':') && m1.isDigit
        && m2.isDigit then
      let h := digitVal h1 * 10 + digitVal h2
      let mi := digitVal m1 * 10 + digitVal m2
      if h < 24 ∧ mi < 60 then some ⟨h, mi, 0⟩ else none
    else none
  | [h1, h2, c1, m1, m2, c2, s1, s2] =>
    if h1.isDigit && h2.isDigit && decide (c1 = ':') && m1.isDigit
        && m2.isDigit && decide (c2 = ':') && s1.isDigit && s2.isDigit then
      let h := digitVal h1 * 10 + digitVal h2
      let mi := digitVal m1 * 10 + digitVal m2
      let se := digitVal s1 * 10 + digitVal s2
      if h < 24 ∧ mi < 60 ∧ se < 60 then some ⟨h, mi, se⟩ else none
    else none
  | _ => none

/-- The optional `time` field: `None` passes validation as-is, a string
must parse as a time. -/
def parseTimeOpt : Option String → Option (Option MTime)
  | none => some none
  | some s => (parseTime s).map some

/-- One extracted table row, restricted to the positions the builder reads
(`row_data[0]`, `row_data[2]`, `row_data[5]`, `row_data[6]`); the row
extractor's contract guarantees at least 7 cells per row. -/
structure Row where
  pos0 : String
  pos2 : String
  pos5 : String
  pos6 : String
deriving DecidableEq, Repr

/-- Outcome of the builder's loop body on one row: `crash` models an
exception the `try`/`except ValidationError` does not catch (it aborts the
whole run), `skipped` a caught validation failure (row logged and
skipped), `ok` a yielded `Match`. -/
inductive BuildResult where
  | crash
  | skipped
  | ok (m : Match)
deriving DecidableEq, Repr

/-- The tail of the loop body after position 0 has been split into date
and optional time token: reformat the date, infer home/away from
position 6 (`away.lower() == SPORTS_RU_HOME`), and run `Match(...)`
validation. -/
def buildRowAux (r : Row) (dateTok : String) (timeTok : Option String) :
    BuildResult :=
  let md := reformatDate dateTok
  let teams :=
    if pyLower r.pos6 = SPORTS_RU_HOME then (CSKA, r.pos5) else (r.pos5, CSKA)
  match parseDate md, parseTimeOpt timeTok with
  | some d, some t => .ok ⟨teams.1, teams.2, d, t, r.pos2⟩
  | _, _ => .skipped

/-- The builder's loop body for one row, from `yield_matches_from_sports_ru`.
`match_date, match_time = dt.split("|")` unpacks exactly two parts; any
other number of parts raises an uncaught `ValueError`, hence `.crash`. -/
def buildRow (r : Row) : BuildResult :=
  if '|' ∈ r.pos0.data then
    match splitOnChar '|' r.pos0.data with
    | [d, t] => buildRowAux r ⟨d⟩ (some ⟨t⟩)
    | _ => .crash
  else
    buildRowAux r r.pos0 none

/-- The whole row loop: yields the built matches in row order, skipping
`skipped` rows; a `crash` aborts the generator (and the run), modelled as
`none`. -/
def runBuilder : List Row → Option (List Match)
  | [] => some []
  | r :: rs =>
    match buildRow r with
    | .crash => none
    | .skipped => runBuilder rs
    | .ok m => (runBuilder rs).map (m :: ·)

/-- The match sequence of one run as a function of the fetch outcome.
`fetch_html_from_sports_ru` returns `None` on any transport failure
(timeout, connection error, non-2xx via `raise_for_status`), and
`yield_matches_from_sports_ru` then yields nothing.  The HTML parse
(BeautifulSoup, an external collaborator) is abstracted away: a successful
fetch is carried directly as the list of extracted rows. -/
def matchesOfRun : Option (List Row) → Option (List Match)
  | none => some []
  | some rows => runBuilder rows

/-- Zero-padded two-digit decimal, as `strftime` `%m`/`%d`/`%H`/`%M`/`%S`. -/
def pad2 (n : Nat) : String := if n < 10 then "0" ++ natRepr n else natRepr n

/-- Zero-padded four-digit decimal, as `strftime` `%Y`. -/
def pad4 (n : Nat) : String :=
  if n < 10 then "000" ++ natRepr n
  else if n < 100 then "00" ++ natRepr n
  else if n < 1000 then "0" ++ natRepr n
  else natRepr n

/-- `strftime("%Y%m%dT%H%M%SZ")` on a naive datetime. -/
def formatBasic (dt : MDateTime) : String :=
  pad4 dt.date.year ++ pad2 dt.date.month ++ pad2 dt.date.day ++ "T"
    ++ pad2 dt.time.hour ++ pad2 dt.time.minute ++ pad2 dt.time.second ++ "Z"

/-- `get_datetime_text` from the source.  The timezone conversion
`arrow.get(dt, tz_name).to("UTC").naive` is the external collaborator
`conv` (the spec treats `convert(local naive datetime, zone) -> UTC naive
datetime` as external); the result is then formatted. -/
def get_datetime_text (conv : MDateTime → MDateTime) (dt : MDateTime) :
    String :=
  formatBasic (conv dt)

/-- The calendar successor of a date (`datetime.date` arithmetic). -/
def nextDay (d : MDate) : MDate :=
  if d.day < daysInMonth d.year d.month then ⟨d.year, d.month, d.day + 1⟩
  else if d.month < 12 then ⟨d.year, d.month + 1, 1⟩
  else ⟨d.year + 1, 1, 1⟩

/-- Advance a date by a number of days. -/
def addDays : MDate → Nat → MDate
  | d, 0 => d
  | d, k + 1 => addDays (nextDay d) k

/-- Python `datetime + timedelta(minutes=k)`: add to the time of day and
carry whole days into calendar date arithmetic. -/
def addMinutes (dt : MDateTime) (k : Nat) : MDateTime :=
  let total := dt.time.hour * 3600 + dt.time.minute * 60 + dt.time.second
    + k * 60
  ⟨addDays dt.date (total / 86400),
    ⟨total % 86400 / 3600, total % 86400 % 3600 / 60, total % 86400 % 60⟩⟩

/-- The `VEVENT_TEMPLATE` literal from the source with its five slots
filled (`str.format`). -/
def veventText (uid created dtStart dtEnd summary : String) : String :=
  "\nBEGIN:VEVENT\nUID:" ++ uid ++ "\nDTSTAMP:" ++ created ++ "\nDTSTART:"
    ++ dtStart ++ "\nDTEND:" ++ dtEnd ++ "\nSUMMARY:" ++ summary
    ++ "\nEND:VEVENT"

/-- `generate_vevent_text` from the source.  The `assert match.time` is
modelled as `none` (an `AssertionError` aborts rendering); `created` is
`get_now_text()`, the memoized `get_datetime_text(NOW)` with `now` the
run's fixed instant. -/
def generate_vevent_text (conv : MDateTime → MDateTime) (now : MDateTime)
    (m : Match) : Option String :=
  match m.time with
  | none => none
  | some t =>
    let start := combine m.date t
    let stop := addMinutes start MATCH_DURATION_MIN
    some (veventText m.get_uid (get_datetime_text conv now)
      (get_datetime_text conv start) (get_datetime_text conv stop)
      m.get_summary)

/-- `"".join(generate_vevent_text(match) for match in matches)`:
concatenation in input order; an assertion failure anywhere aborts. -/
def renderEvents (conv : MDateTime → MDateTime) (now : MDateTime) :
    List Match → Option String
  | [] => some ""
  | m :: ms =>
    match generate_vevent_text conv now m, renderEvents conv now ms with
    | some s, some rest => some (s ++ rest)
    | _, _ => none

/-- `generate_vcalendar_text` from the source:
`f"{VCALENDAR_HEADER}{body}{VCALENDAR_FOOTER}"`. -/
def generate_vcalendar_text (conv : MDateTime → MDateTime)
    (now : MDateTime) (ms : List Match) : Option String :=
  (renderEvents conv now ms).map
    (fun body => VCALENDAR_HEADER ++ body ++ VCALENDAR_FOOTER)

/-- The future filter from `main`:
`[match for match in ... if match.in_future()]`. -/
def futureMatches (now : MDateTime) (ms : List Match) : List Match :=
  ms.filter (Match.in_future · now)

/-! ### Helper lemmas -/

theorem ofDigits_natDigitsAux : ∀ fuel n, n ≤ fuel →
    ofDigits (natDigitsAux fuel n) = n := by
  intro fuel
  induction fuel with
  | zero =>
    intro n h
    interval_cases n
    simp [natDigitsAux, ofDigits]
  | succ f ih =>
    intro n h
    by_cases h0 : n = 0
    · subst h0; simp [natDigitsAux, ofDigits]
    · have hlt : n / 10 < n := Nat.div_lt_self (Nat.pos_of_ne_zero h0)
        (by norm_num)
      rw [natDigitsAux, if_neg h0]
      simp only [ofDigits]
      rw [ih (n / 10) (by omega)]
      omega

theorem ofDigits_natDigits (n : Nat) : ofDigits (natDigits n) = n :=
  ofDigits_natDigitsAux n n le_rfl

theorem natDigitsAux_lt : ∀ fuel n d, d ∈ natDigitsAux fuel n → d < 10 := by
  intro fuel
  induction fuel with
  | zero => intro n d hd; simp [natDigitsAux] at hd
  | succ f ih =>
    intro n d hd
    rw [natDigitsAux] at hd
    by_cases h0 : n = 0
    · rw [if_pos h0] at hd; simp at hd
    · rw [if_neg h0] at hd
      rcases List.mem_cons.mp hd with h | h
      · subst h; exact Nat.mod_lt _ (by norm_num)
      · exact ih _ _ h

theorem natDigits_lt (n d : Nat) (h : d ∈ natDigits n) : d < 10 :=
  natDigitsAux_lt n n d h

theorem digitChar_inj (d1 d2 : Nat) (h1 : d1 < 10) (h2 : d2 < 10)
    (h : digitChar d1 = digitChar d2) : d1 = d2 := by
  interval_cases d1 <;> interval_cases d2 <;> first | rfl | exact absurd h (by decide)

theorem map_digitChar_inj : ∀ l1 l2 : List Nat, (∀ d ∈ l1, d < 10) →
    (∀ d ∈ l2, d < 10) → l1.map digitChar = l2.map digitChar → l1 = l2 := by
  intro l1
  induction l1 with
  | nil => intro l2 _ _ h; cases l2 <;> simp_all
  | cons a t ih =>
    intro l2 h1 h2 h
    cases l2 with
    | nil => simp at h
    | cons b t2 =>
      simp only [List.map_cons, List.cons.injEq] at h
      have hab := digitChar_inj a b (h1 a (by simp)) (h2 b (by simp)) h.1
      have ht := ih t2 (fun d hd => h1 d (by simp [hd]))
        (fun d hd => h2 d (by simp [hd])) h.2
      rw [hab, ht]

theorem natRepr_ne_zero_str (b : Nat) (hb : b ≠ 0) : natRepr b ≠ "0" := by
  intro h
  unfold natRepr at h
  rw [if_neg hb] at h
  have hd : ((natDigits b).map digitChar).reverse = ['0'] :=
    congrArg String.data h
  have hmap : (natDigits b).map digitChar = ['0'] := by
    have := congrArg List.reverse hd
    simpa using this
  cases hnb : natDigits b with
  | nil => rw [hnb] at hmap; simp at hmap
  | cons d ds =>
    rw [hnb] at hmap
    simp only [List.map_cons, List.cons.injEq, List.map_eq_nil_iff] at hmap
    have hd10 : d < 10 := natDigits_lt b d (by rw [hnb]; simp)
    have hd0 : d = 0 := digitChar_inj d 0 hd10 (by norm_num) (by
      rw [hmap.1]; rfl)
    have hval := ofDigits_natDigits b
    rw [hnb, hmap.2, hd0] at hval
    simp [ofDigits] at hval
    exact hb hval.symm

theorem natRepr_injective (a b : Nat) (h : natRepr a = natRepr b) : a = b := by
  by_cases ha : a = 0 <;> by_cases hb : b = 0
  · rw [ha, hb]
  · exfalso
    subst ha
    exact natRepr_ne_zero_str b hb (h.symm.trans (by simp [natRepr]))
  · exfalso
    subst hb
    exact natRepr_ne_zero_str a ha (h.trans (by simp [natRepr]))
  · unfold natRepr at h
    rw [if_neg ha, if_neg hb] at h
    have hd : ((natDigits a).map digitChar).reverse =
        ((natDigits b).map digitChar).reverse := congrArg String.data h
    have hmap : (natDigits a).map digitChar = (natDigits b).map digitChar :=
      List.reverse_injective hd
    have hdig : natDigits a = natDigits b :=
      map_digitChar_inj _ _ (natDigits_lt a) (natDigits_lt b) hmap
    have := ofDigits_natDigits a
    rw [hdig, ofDigits_natDigits b] at this
    exact this.symm

theorem natRepr_no_underscore (n : Nat) (c : Char)
    (hc : c ∈ (natRepr n).data) : c ≠ '_' := by
  unfold natRepr at hc
  by_cases h0 : n = 0
  · rw [if_pos h0] at hc
    have : c = '0' := by simpa using hc
    subst this; decide
  · rw [if_neg h0] at hc
    simp only [List.mem_reverse, List.mem_map] at hc
    obtain ⟨d, hd, rfl⟩ := hc
    have : d < 10 := natDigits_lt n d hd
    interval_cases d <;> decide

theorem append_sep_cancel : ∀ a b r r' : List Char, '_' ∉ a → '_' ∉ b →
    a ++ '_' :: r = b ++ '_' :: r' → a = b ∧ r = r' := by
  intro a
  induction a with
  | nil =>
    intro b r r' _ hb h
    cases b with
    | nil => simp_all
    | cons x xs =>
      simp only [List.nil_append, List.cons_append, List.cons.injEq] at h
      exact absurd (h.1 ▸ List.mem_cons_self x xs) hb
  | cons x xs ih =>
    intro b r r' ha hb h
    cases b with
    | nil =>
      simp only [List.cons_append, List.nil_append, List.cons.injEq] at h
      exact absurd (h.1 ▸ List.mem_cons_self x xs) ha
    | cons y ys =>
      simp only [List.cons_append, List.cons.injEq] at h
      have := ih ys r r' (fun hm => ha (List.mem_cons_of_mem x hm))
        (fun hm => hb (List.mem_cons_of_mem y hm)) h.2
      exact ⟨by rw [h.1, this.1], this.2⟩

theorem get_uid_data (m : Match) : m.get_uid.data =
    m.tournament.data ++ '_' :: (m.home_team.data ++ '_' ::
      (m.away_team.data ++ '_' :: (natRepr m.date.year).data)) := by
  simp [Match.get_uid, String.data_append]

theorem dtLt_iff_key (a b : MDateTime) (ha : dtValid a) (hb : dtValid b) :
    dtLt a b = true ↔ dtKey a < dtKey b := by
  obtain ⟨ha1, ha2, ha3, ha4, ha5⟩ := ha
  obtain ⟨hb1, hb2, hb3, hb4, hb5⟩ := hb
  simp only [dtLt, dtKey, Bool.or_eq_true, Bool.and_eq_true,
    decide_eq_true_eq]
  omega

theorem dtLt_self (a : MDateTime) : dtLt a a = false := by
  simp [dtLt]

theorem buildRowAux_ok_teams (r : Row) (dTok : String) (tTok : Option String)
    (m : Match) (h : buildRowAux r dTok tTok = .ok m) :
    (pyLower r.pos6 = SPORTS_RU_HOME →
      m.home_team = CSKA ∧ m.away_team = r.pos5) ∧
    (pyLower r.pos6 ≠ SPORTS_RU_HOME →
      m.home_team = r.pos5 ∧ m.away_team = CSKA) := by
  unfold buildRowAux at h
  by_cases hm : pyLower r.pos6 = SPORTS_RU_HOME
  · simp only [if_pos hm] at h
    split at h
    · cases h
      exact ⟨fun _ => ⟨rfl, rfl⟩, fun hn => absurd hm hn⟩
    · exact absurd h (by simp)
  · simp only [if_neg hm] at h
    split at h
    · cases h
      exact ⟨fun hh => absurd hh hm, fun _ => ⟨rfl, rfl⟩⟩
    · exact absurd h (by simp)

theorem buildRowAux_ne_crash (r : Row) (dTok : String)
    (tTok : Option String) : buildRowAux r dTok tTok ≠ .crash := by
  cases hd : parseDate (reformatDate dTok) <;>
    cases ht : parseTimeOpt tTok <;> simp [buildRowAux, hd, ht]

theorem buildRowAux_skip_of_bad_date (r : Row) (dTok : String)
    (tTok : Option String) (h : parseDate (reformatDate dTok) = none) :
    buildRowAux r dTok tTok = .skipped := by
  simp [buildRowAux, h]

theorem buildRow_ok_elim (r : Row) (m : Match) (h : buildRow r = .ok m) :
    ∃ dTok tTok, buildRowAux r dTok tTok = .ok m := by
  unfold buildRow at h
  split at h
  · split at h
    · rename_i d t heq
      exact ⟨⟨d⟩, some ⟨t⟩, h⟩
    · exact absurd h (by simp)
  · exact ⟨r.pos0, none, h⟩

theorem buildRow_ok_teams (r : Row) (m : Match) (h : buildRow r = .ok m) :
    (pyLower r.pos6 = SPORTS_RU_HOME →
      m.home_team = CSKA ∧ m.away_team = r.pos5) ∧
    (pyLower r.pos6 ≠ SPORTS_RU_HOME →
      m.home_team = r.pos5 ∧ m.away_team = CSKA) := by
  obtain ⟨d, t, hd⟩ := buildRow_ok_elim r m h
  exact buildRowAux_ok_teams r d t m hd

theorem splitOnChar_ne_nil (sep : Char) : ∀ l, splitOnChar sep l ≠ [] := by
  intro l
  cases l with
  | nil => simp [splitOnChar]
  | cons c cs =>
    rw [splitOnChar]
    by_cases hc : c = sep
    · simp [hc]
    · rw [if_neg hc]
      cases h : splitOnChar sep cs <;> simp

theorem splitOnChar_length (sep : Char) : ∀ l : List Char,
    (splitOnChar sep l).length = l.count sep + 1 := by
  intro l
  induction l with
  | nil => rfl
  | cons c cs ih =>
    rw [splitOnChar]
    by_cases hc : c = sep
    · rw [if_pos hc]
      subst hc
      simp [List.count_cons, ih]
    · rw [if_neg hc]
      cases h2 : splitOnChar sep cs with
      | nil => exact absurd h2 (splitOnChar_ne_nil sep cs)
      | cons r rs =>
        have hih := ih
        rw [h2] at hih
        simp only [List.length_cons] at hih
        have hcs : sep ≠ c := fun hh => hc hh.symm
        simp [List.count_cons, hcs]
        omega

theorem splitOnChar_not_mem (sep : Char) : ∀ l : List Char, sep ∉ l →
    splitOnChar sep l = [l] := by
  intro l
  induction l with
  | nil => intro; rfl
  | cons c cs ih =>
    intro h
    rw [splitOnChar, if_neg (fun hc => h (List.mem_cons.mpr (Or.inl hc.symm))),
      ih (fun hm => h (List.mem_cons_of_mem c hm))]

theorem runBuilder_append : ∀ xs ys : List Row, runBuilder (xs ++ ys) =
    (runBuilder xs).bind fun a => (runBuilder ys).map (a ++ ·) := by
  intro xs ys
  induction xs with
  | nil => cases h : runBuilder ys <;> simp [runBuilder, h]
  | cons r rs ih =>
    rw [List.cons_append]
    cases hb : buildRow r with
    | crash => simp [runBuilder, hb]
    | skipped => simp only [runBuilder, hb, ih]
    | ok m =>
      simp only [runBuilder, hb, ih]
      cases h1 : runBuilder rs <;> cases h2 : runBuilder ys <;> simp

theorem runBuilder_all_ok : ∀ rs : List Row,
    (∀ r ∈ rs, ∃ m, buildRow r = .ok m) →
    ∃ ms, runBuilder rs = some ms ∧ ms.length = rs.length := by
  intro rs
  induction rs with
  | nil => intro _; exact ⟨[], rfl, rfl⟩
  | cons r t ih =>
    intro h
    obtain ⟨m, hm⟩ := h r (by simp)
    obtain ⟨ms, hms, hlen⟩ := ih (fun x hx => h x (by simp [hx]))
    exact ⟨m :: ms, by rw [runBuilder, hm, hms]; rfl, by simp [hlen]⟩

theorem renderEvents_all_some (conv : MDateTime → MDateTime)
    (now : MDateTime) : ∀ ms : List Match, (∀ m ∈ ms, m.time ≠ none) →
    ∃ s, renderEvents conv now ms = some s := by
  intro ms
  induction ms with
  | nil => intro _; exact ⟨"", rfl⟩
  | cons m t ih =>
    intro h
    obtain ⟨s2, hs2⟩ := ih (fun x hx => h x (by simp [hx]))
    cases htm : m.time with
    | none => exact absurd htm (h m (by simp))
    | some tt =>
      have hgen : ∃ s1, generate_vevent_text conv now m = some s1 := by
        simp [generate_vevent_text, htm]
      obtain ⟨s1, hs1⟩ := hgen
      exact ⟨s1 ++ s2, by rw [renderEvents, hs1, hs2]⟩

/-! ### Claims -/

/-- C1 counterexample: the claim says exactly one of `home_team` and
`away_team` equals the tracked club whatever text position 5 contains; but
when position 5 is itself "ЦСКА" (with the home marker), the builder yields
a Match whose home and away team are both the tracked club. -/
theorem claim_C1_counterexample :
    buildRow ⟨"10.02.2026|10:00", "Кубок", "ЦСКА", "Дома"⟩ =
      .ok ⟨CSKA, CSKA, ⟨2026, 2, 10⟩, some ⟨10, 0, 0⟩, "Кубок"⟩ := by
  decide

/-- C1 (amended): for every row turned into a Match, at least one side is
the tracked club "ЦСКА" unconditionally; when the opposing-team field
(position 5) is not itself the tracked club's name, exactly one side is
the tracked club and they are never both — whatever the home/away marker
contains; and when position 5 is itself the tracked club's name, both
sides equal the tracked club. -/
theorem claim_C1_amended (r : Row) (m : Match) (h : buildRow r = .ok m) :
    (m.home_team = CSKA ∨ m.away_team = CSKA) ∧
    (r.pos5 ≠ CSKA → (m.home_team = CSKA ↔ m.away_team ≠ CSKA)) ∧
    (r.pos5 = CSKA → m.home_team = CSKA ∧ m.away_team = CSKA) := by
  have ht := buildRow_ok_teams r m h
  by_cases hm : pyLower r.pos6 = SPORTS_RU_HOME
  · obtain ⟨h1, h2⟩ := ht.1 hm
    refine ⟨Or.inl h1, fun h5 => ⟨fun _ => ?_, fun _ => h1⟩,
      fun h5 => ⟨h1, h2.trans h5⟩⟩
    rw [h2]
    exact h5
  · obtain ⟨h1, h2⟩ := ht.2 hm
    refine ⟨Or.inr h2,
      fun h5 => ⟨fun hh => absurd (h1.symm.trans hh) h5,
        fun hne => absurd h2 hne⟩,
      fun h5 => ⟨h1.trans h5, h2⟩⟩

/-- C1 witness: the amended claim applied to the away-marker sample row
(exactly one side is the tracked club) and to a row whose position 5 is
itself "ЦСКА" (both sides are the tracked club). -/
theorem claim_C1_witness :
    ((⟨"Зенит", "ЦСКА", ⟨2026, 2, 10⟩, some ⟨10, 0, 0⟩,
        "Winline Зимний кубок РПЛ"⟩ : Match).home_team = CSKA ∨
      (⟨"Зенит", "ЦСКА", ⟨2026, 2, 10⟩, some ⟨10, 0, 0⟩,
        "Winline Зимний кубок РПЛ"⟩ : Match).away_team = CSKA) ∧
    ((⟨"Зенит", "ЦСКА", ⟨2026, 2, 10⟩, some ⟨10, 0, 0⟩,
        "Winline Зимний кубок РПЛ"⟩ : Match).home_team = CSKA ↔
      (⟨"Зенит", "ЦСКА", ⟨2026, 2, 10⟩, some ⟨10, 0, 0⟩,
        "Winline Зимний кубок РПЛ"⟩ : Match).away_team ≠ CSKA) ∧
    ((⟨"ЦСКА", "ЦСКА", ⟨2026, 2, 10⟩, some ⟨10, 0, 0⟩,
        "Кубок"⟩ : Match).home_team = CSKA ∧
      (⟨"ЦСКА", "ЦСКА", ⟨2026, 2, 10⟩, some ⟨10, 0, 0⟩,
        "Кубок"⟩ : Match).away_team = CSKA) :=
  ⟨(claim_C1_amended
      ⟨"10.02.2026|10:00", "Winline Зимний кубок РПЛ", "Зенит", "В гостях"⟩
      ⟨"Зенит", "ЦСКА", ⟨2026, 2, 10⟩, some ⟨10, 0, 0⟩,
        "Winline Зимний кубок РПЛ"⟩ (by decide)).1,
    (claim_C1_amended
      ⟨"10.02.2026|10:00", "Winline Зимний кубок РПЛ", "Зенит", "В гостях"⟩
      ⟨"Зенит", "ЦСКА", ⟨2026, 2, 10⟩, some ⟨10, 0, 0⟩,
        "Winline Зимний кубок РПЛ"⟩ (by decide)).2.1 (by decide),
    (claim_C1_amended ⟨"10.02.2026|10:00", "Кубок", "ЦСКА", "Дома"⟩
      ⟨"ЦСКА", "ЦСКА", ⟨2026, 2, 10⟩, some ⟨10, 0, 0⟩, "Кубок"⟩
      (by decide)).2.2 (by decide)⟩

/-- C2 counterexample: the identifier is not collision-resistant across
distinct (tournament, home, away, year) tuples — two Matches with distinct
tournaments and home teams share the identifier because the underscore
join is ambiguous when a field itself contains an underscore. -/
theorem claim_C2_counterexample :
    (⟨"C", "D", ⟨2026, 2, 10⟩, none, "A_B"⟩ : Match).get_uid =
      (⟨"B_C", "D", ⟨2026, 2, 10⟩, none, "A"⟩ : Match).get_uid ∧
    ("A_B" : String) ≠ "A" ∧ ("C" : String) ≠ "B_C" := by
  decide

/-- C2 (amended): `get_uid` is a deterministic function of
(tournament, home_team, away_team, year) — so two Matches differing only
in date-within-year share an identifier — and it is collision-resistant
across distinct tuples provided the three text fields contain no
underscore (the join separator). -/
theorem claim_C2_amended (m1 m2 : Match) :
    ((m1.tournament = m2.tournament ∧ m1.home_team = m2.home_team ∧
      m1.away_team = m2.away_team ∧ m1.date.year = m2.date.year) →
      m1.get_uid = m2.get_uid) ∧
    ('_' ∉ m1.tournament.data → '_' ∉ m1.home_team.data →
     '_' ∉ m1.away_team.data → '_' ∉ m2.tournament.data →
     '_' ∉ m2.home_team.data → '_' ∉ m2.away_team.data →
     m1.get_uid = m2.get_uid →
      m1.tournament = m2.tournament ∧ m1.home_team = m2.home_team ∧
        m1.away_team = m2.away_team ∧ m1.date.year = m2.date.year) := by
  constructor
  · rintro ⟨e1, e2, e3, e4⟩
    simp [Match.get_uid, e1, e2, e3, e4]
  · intro h1 h2 h3 h4 h5 h6 h
    have hd := congrArg String.data h
    rw [get_uid_data, get_uid_data] at hd
    obtain ⟨e1, hd⟩ := append_sep_cancel _ _ _ _ h1 h4 hd
    obtain ⟨e2, hd⟩ := append_sep_cancel _ _ _ _ h2 h5 hd
    obtain ⟨e3, hd⟩ := append_sep_cancel _ _ _ _ h3 h6 hd
    exact ⟨String.ext e1, String.ext e2, String.ext e3,
      natRepr_injective _ _ (String.ext hd)⟩

/-- C2 witness: two matches differing only in date-within-year share the
identifier, and equal underscore-free identifiers force equal tuples. -/
theorem claim_C2_witness :
    (⟨"Зенит", "ЦСКА", ⟨2026, 2, 10⟩, some ⟨10, 0, 0⟩, "Кубок"⟩ :
        Match).get_uid =
      (⟨"Зенит", "ЦСКА", ⟨2026, 3, 15⟩, none, "Кубок"⟩ : Match).get_uid ∧
    ((⟨"A", "B", ⟨2026, 1, 1⟩, none, "T"⟩ : Match).tournament =
        (⟨"A", "B", ⟨2026, 5, 5⟩, none, "T"⟩ : Match).tournament ∧
      (⟨"A", "B", ⟨2026, 1, 1⟩, none, "T"⟩ : Match).home_team =
        (⟨"A", "B", ⟨2026, 5, 5⟩, none, "T"⟩ : Match).home_team ∧
      (⟨"A", "B", ⟨2026, 1, 1⟩, none, "T"⟩ : Match).away_team =
        (⟨"A", "B", ⟨2026, 5, 5⟩, none, "T"⟩ : Match).away_team ∧
      (⟨"A", "B", ⟨2026, 1, 1⟩, none, "T"⟩ : Match).date.year =
        (⟨"A", "B", ⟨2026, 5, 5⟩, none, "T"⟩ : Match).date.year) :=
  ⟨(claim_C2_amended ⟨"Зенит", "ЦСКА", ⟨2026, 2, 10⟩, some ⟨10, 0, 0⟩,
      "Кубок"⟩ ⟨"Зенит", "ЦСКА", ⟨2026, 3, 15⟩, none, "Кубок"⟩).1
      (by decide),
    (claim_C2_amended ⟨"A", "B", ⟨2026, 1, 1⟩, none, "T"⟩
      ⟨"A", "B", ⟨2026, 5, 5⟩, none, "T"⟩).2 (by decide) (by decide)
      (by decide) (by decide) (by decide) (by decide) (by decide)⟩

/-- C3: `in_future` is false when `time` is absent (whatever the date);
otherwise it is true iff the combined datetime is strictly after the
reference instant (on the timeline linearization `dtKey`), and equality
yields false. -/
theorem claim_C3 (m : Match) (now : MDateTime) :
    (m.time = none → m.in_future now = false) ∧
    (∀ t, m.time = some t → dtValid now → dtValid (combine m.date t) →
      (m.in_future now = true ↔ dtKey now < dtKey (combine m.date t))) ∧
    (∀ t, m.time = some t → combine m.date t = now →
      m.in_future now = false) := by
  refine ⟨fun h => by simp [Match.in_future, h],
    fun t ht hv1 hv2 => ?_, fun t ht heq => ?_⟩
  · simp only [Match.in_future, ht]
    exact dtLt_iff_key now (combine m.date t) hv1 hv2
  · simp only [Match.in_future, ht]
    rw [heq]
    exact dtLt_self now

/-- C3 witness: a timeless Match is never in the future, and a timed one
compares strictly against the reference instant. -/
theorem claim_C3_witness :
    Match.in_future ⟨"A", "B", ⟨2026, 2, 10⟩, none, "T"⟩
      ⟨⟨2026, 1, 1⟩, ⟨0, 0, 0⟩⟩ = false ∧
    (Match.in_future ⟨"A", "B", ⟨2026, 2, 10⟩, some ⟨10, 0, 0⟩, "T"⟩
        ⟨⟨2026, 1, 1⟩, ⟨0, 0, 0⟩⟩ = true ↔
      dtKey ⟨⟨2026, 1, 1⟩, ⟨0, 0, 0⟩⟩ <
        dtKey (combine ⟨2026, 2, 10⟩ ⟨10, 0, 0⟩)) :=
  ⟨(claim_C3 ⟨"A", "B", ⟨2026, 2, 10⟩, none, "T"⟩
      ⟨⟨2026, 1, 1⟩, ⟨0, 0, 0⟩⟩).1 rfl,
    (claim_C3 ⟨"A", "B", ⟨2026, 2, 10⟩, some ⟨10, 0, 0⟩, "T"⟩
      ⟨⟨2026, 1, 1⟩, ⟨0, 0, 0⟩⟩).2.1 ⟨10, 0, 0⟩ rfl (by decide) (by decide)⟩

/-- C4: the date reformatting is a pure character-position rearrangement
of a 10-character `DD.MM.YYYY` token into `YYYY-MM-DD`, with no calendar
validation (the digit positions are arbitrary characters); in particular
"18.02.2026" yields "2026-02-18". -/
theorem claim_C4 :
    (∀ d1 d2 a1 a2 y1 y2 y3 y4 : Char,
      reformatDate ⟨[d1, d2, '.', a1, a2, '.', y1, y2, y3, y4]⟩ =
        ⟨[y1, y2, y3, y4, '-', a1, a2, '-', d1, d2]⟩) ∧
    reformatDate "18.02.2026" = "2026-02-18" :=
  ⟨fun _ _ _ _ _ _ _ _ => rfl, rfl⟩

/-- C5: home/away inference matches the home marker case-insensitively
("Дома", "дома", "ДОМА" all qualify); with the marker, the tracked club is
the home team and position 5 the away team; with any other position-6
value, position 5 is the home team and the tracked club the away team. -/
theorem claim_C5 :
    (pyLower "Дома" = SPORTS_RU_HOME ∧ pyLower "дома" = SPORTS_RU_HOME ∧
      pyLower "ДОМА" = SPORTS_RU_HOME) ∧
    ∀ (r : Row) (m : Match), buildRow r = .ok m →
      (pyLower r.pos6 = SPORTS_RU_HOME →
        m.home_team = CSKA ∧ m.away_team = r.pos5) ∧
      (pyLower r.pos6 ≠ SPORTS_RU_HOME →
        m.home_team = r.pos5 ∧ m.away_team = CSKA) :=
  ⟨by decide, buildRow_ok_teams⟩

/-- C5 witness: the home-marker sample row yields the tracked club at
home against the position-5 opponent. -/
theorem claim_C5_witness :
    (⟨"ЦСКА", "Ростов", ⟨2026, 2, 18⟩, none,
        "Товарищеские матчи (клубы)"⟩ : Match).home_team = CSKA ∧
    (⟨"ЦСКА", "Ростов", ⟨2026, 2, 18⟩, none,
        "Товарищеские матчи (клубы)"⟩ : Match).away_team = "Ростов" :=
  (claim_C5.2 ⟨"18.02.2026", "Товарищеские матчи (клубы)", "Ростов", "Дома"⟩
    ⟨"ЦСКА", "Ростов", ⟨2026, 2, 18⟩, none, "Товарищеские матчи (клубы)"⟩
    (by decide)).1 (by decide)

/-- C6: a row whose Match construction fails validation is skipped while
every other row is still processed: with a single such row amid otherwise
valid rows, the builder yields exactly the Matches of the valid rows, in
order, one fewer than the number of rows. -/
theorem claim_C6 (l1 l2 : List Row) (bad : Row)
    (hbad : buildRow bad = .skipped)
    (hok : ∀ r ∈ l1 ++ l2, ∃ m, buildRow r = .ok m) :
    ∃ ms, runBuilder (l1 ++ bad :: l2) = some ms ∧
      runBuilder (l1 ++ l2) = some ms ∧
      ms.length = (l1 ++ bad :: l2).length - 1 := by
  obtain ⟨ms, hms, hlen⟩ := runBuilder_all_ok (l1 ++ l2) hok
  have hskip : runBuilder (bad :: l2) = runBuilder l2 := by
    rw [runBuilder, hbad]
  have key : runBuilder (l1 ++ bad :: l2) = runBuilder (l1 ++ l2) := by
    rw [runBuilder_append, runBuilder_append, hskip]
  refine ⟨ms, by rw [key, hms], hms, ?_⟩
  rw [hlen]
  simp only [List.length_append, List.length_cons]
  omega

/-- C6 witness: one malformed row between two valid rows is skipped and
the builder still yields both valid Matches. -/
theorem claim_C6_witness :
    ∃ ms,
      runBuilder [⟨"10.02.2026|10:00", "Кубок", "Зенит", "В гостях"⟩,
        ⟨"99.99.9999", "Кубок", "Зенит", "Дома"⟩,
        ⟨"18.02.2026|15:30", "Кубок", "Ростов", "Дома"⟩] = some ms ∧
      runBuilder [⟨"10.02.2026|10:00", "Кубок", "Зенит", "В гостях"⟩,
        ⟨"18.02.2026|15:30", "Кубок", "Ростов", "Дома"⟩] = some ms ∧
      ms.length = 3 - 1 :=
  claim_C6 [⟨"10.02.2026|10:00", "Кубок", "Зенит", "В гостях"⟩]
    [⟨"18.02.2026|15:30", "Кубок", "Ростов", "Дома"⟩]
    ⟨"99.99.9999", "Кубок", "Зенит", "Дома"⟩ (by decide)
    (by
      intro r hr
      simp only [List.cons_append, List.nil_append, List.mem_cons,
        List.not_mem_nil, or_false] at hr
      rcases hr with rfl | rfl
      · exact ⟨⟨"Зенит", CSKA, ⟨2026, 2, 10⟩, some ⟨10, 0, 0⟩, "Кубок"⟩,
          by decide⟩
      · exact ⟨⟨CSKA, "Ростов", ⟨2026, 2, 18⟩, some ⟨15, 30, 0⟩, "Кубок"⟩,
          by decide⟩)

/-- C7: a transport failure yields an empty match sequence, and rendering
the empty sequence produces exactly the fixed calendar header immediately
followed by the fixed footer, with zero event blocks. -/
theorem claim_C7 (conv : MDateTime → MDateTime) (now : MDateTime) :
    matchesOfRun none = some [] ∧ futureMatches now [] = [] ∧
    generate_vcalendar_text conv now [] =
      some (VCALENDAR_HEADER ++ VCALENDAR_FOOTER) :=
  ⟨rfl, rfl, rfl⟩

/-- C8: for a Match with a time, the rendered event's end stamp is the
combined start datetime plus exactly 120 minutes, converted and formatted
by the same `get_datetime_text` as the start stamp; adding those 120
minutes advances the clock by two hours, rolling into the next calendar
day when the start hour is 22 or later. -/
theorem claim_C8 (conv : MDateTime → MDateTime) (now : MDateTime)
    (m : Match) (t : MTime) (ht : m.time = some t)
    (hv : dtValid (combine m.date t)) :
    generate_vevent_text conv now m =
      some (veventText m.get_uid (get_datetime_text conv now)
        (get_datetime_text conv (combine m.date t))
        (get_datetime_text conv (addMinutes (combine m.date t) 120))
        m.get_summary) ∧
    addMinutes (combine m.date t) 120 =
      (if t.hour + 2 < 24 then
        ⟨m.date, ⟨t.hour + 2, t.minute, t.second⟩⟩
      else ⟨nextDay m.date, ⟨t.hour + 2 - 24, t.minute, t.second⟩⟩) := by
  have hh : t.hour < 24 := hv.2.2.1
  have hmi : t.minute < 60 := hv.2.2.2.1
  have hs : t.second < 60 := hv.2.2.2.2
  constructor
  · simp [generate_vevent_text, ht, MATCH_DURATION_MIN]
  · simp only [addMinutes, combine]
    by_cases hcase : t.hour + 2 < 24
    · rw [if_pos hcase]
      have h1 : (t.hour * 3600 + t.minute * 60 + t.second + 120 * 60)
          / 86400 = 0 := by omega
      have h2 : (t.hour * 3600 + t.minute * 60 + t.second + 120 * 60)
          % 86400 = t.hour * 3600 + t.minute * 60 + t.second + 7200 := by
        omega
      rw [h1, h2]
      simp only [addDays, MDateTime.mk.injEq, MTime.mk.injEq,
        eq_self_iff_true, true_and]
      refine ⟨?_, ?_, ?_⟩ <;> omega
    · rw [if_neg hcase]
      have h1 : (t.hour * 3600 + t.minute * 60 + t.second + 120 * 60)
          / 86400 = 1 := by omega
      rw [h1]
      simp only [addDays, MDateTime.mk.injEq, MTime.mk.injEq,
        eq_self_iff_true, true_and]
      refine ⟨?_, ?_, ?_⟩ <;> omega

/-- C8 witness: a 23:30 kickoff on 2026-02-28 ends at 01:30 on 2026-03-01
(120 minutes later), rendered through the same conversion and format. -/
theorem claim_C8_witness :
    generate_vevent_text id ⟨⟨2026, 1, 1⟩, ⟨0, 0, 0⟩⟩
        ⟨"A", "B", ⟨2026, 2, 28⟩, some ⟨23, 30, 0⟩, "T"⟩ =
      some (veventText
        (Match.get_uid ⟨"A", "B", ⟨2026, 2, 28⟩, some ⟨23, 30, 0⟩, "T"⟩)
        (get_datetime_text id ⟨⟨2026, 1, 1⟩, ⟨0, 0, 0⟩⟩)
        (get_datetime_text id (combine ⟨2026, 2, 28⟩ ⟨23, 30, 0⟩))
        (get_datetime_text id
          (addMinutes (combine ⟨2026, 2, 28⟩ ⟨23, 30, 0⟩) 120))
        (Match.get_summary ⟨"A", "B", ⟨2026, 2, 28⟩, some ⟨23, 30, 0⟩,
          "T"⟩)) ∧
    addMinutes (combine ⟨2026, 2, 28⟩ ⟨23, 30, 0⟩) 120 =
      ⟨⟨2026, 3, 1⟩, ⟨1, 30, 0⟩⟩ :=
  claim_C8 id ⟨⟨2026, 1, 1⟩, ⟨0, 0, 0⟩⟩
    ⟨"A", "B", ⟨2026, 2, 28⟩, some ⟨23, 30, 0⟩, "T"⟩ ⟨23, 30, 0⟩ rfl
    (by decide)

/-- C9: every Match surviving the future filter has a non-absent time, so
the renderer's time-present assertion holds for every element and
rendering the filter's output never fails. -/
theorem claim_C9 (conv : MDateTime → MDateTime) (now : MDateTime)
    (all : List Match) :
    (∀ m ∈ futureMatches now all, m.time ≠ none) ∧
    ∃ s, generate_vcalendar_text conv now (futureMatches now all) =
      some s := by
  have htime : ∀ m ∈ futureMatches now all, m.time ≠ none := by
    intro m hm hnone
    have hf : m.in_future now = true := (List.mem_filter.mp hm).2
    simp [Match.in_future, hnone] at hf
  refine ⟨htime, ?_⟩
  obtain ⟨s, hs⟩ := renderEvents_all_some conv now _ htime
  exact ⟨VCALENDAR_HEADER ++ s ++ VCALENDAR_FOOTER,
    by simp [generate_vcalendar_text, hs]⟩

/-- C9 witness: rendering the filtered output of a concrete run succeeds. -/
theorem claim_C9_witness :
    ∃ s, generate_vcalendar_text id ⟨⟨2026, 1, 1⟩, ⟨0, 0, 0⟩⟩
      (futureMatches ⟨⟨2026, 1, 1⟩, ⟨0, 0, 0⟩⟩
        [⟨"A", "B", ⟨2026, 2, 10⟩, some ⟨10, 0, 0⟩, "T"⟩,
         ⟨"C", "D", ⟨2026, 2, 11⟩, none, "T"⟩]) = some s :=
  (claim_C9 id ⟨⟨2026, 1, 1⟩, ⟨0, 0, 0⟩⟩
    [⟨"A", "B", ⟨2026, 2, 10⟩, some ⟨10, 0, 0⟩, "T"⟩,
     ⟨"C", "D", ⟨2026, 2, 11⟩, none, "T"⟩]).2

/-- C10 counterexample: a position-0 token containing two pipe characters
splits into three parts, so the two-variable unpacking raises an uncaught
ValueError and the builder crashes instead of skipping the row. -/
theorem claim_C10_counterexample :
    (splitOnChar '|' ("1|2|3" : String).data).length = 3 ∧
    buildRow ⟨"1|2|3", "t", "x", "y"⟩ = .crash := by
  decide

/-- C10 (amended): for every position-0 token containing at most one pipe
separator, the split and the character-slicing date rearrangement are
total and the builder never raises; a token whose rearrangement is not a
parseable date makes Match validation fail, so the row is skipped. -/
theorem claim_C10_amended (r : Row) (hc : r.pos0.data.count '|' ≤ 1) :
    buildRow r ≠ .crash ∧
    (parseDate (reformatDate ⟨(splitOnChar '|' r.pos0.data).headI⟩) =
        none → buildRow r = .skipped) := by
  by_cases hp : '|' ∈ r.pos0.data
  · have hcount : r.pos0.data.count '|' = 1 := by
      have h1 : 0 < r.pos0.data.count '|' := List.count_pos_iff.mpr hp
      omega
    have hlen : (splitOnChar '|' r.pos0.data).length = 2 := by
      rw [splitOnChar_length, hcount]
    obtain ⟨d, t, hdt⟩ := List.length_eq_two.mp hlen
    constructor
    · unfold buildRow
      rw [if_pos hp, hdt]
      exact buildRowAux_ne_crash r ⟨d⟩ (some ⟨t⟩)
    · intro hbad
      rw [hdt] at hbad
      simp only [List.headI] at hbad
      unfold buildRow
      rw [if_pos hp, hdt]
      exact buildRowAux_skip_of_bad_date r ⟨d⟩ (some ⟨t⟩) hbad
  · have hsplit : splitOnChar '|' r.pos0.data = [r.pos0.data] :=
      splitOnChar_not_mem '|' _ hp
    constructor
    · unfold buildRow
      rw [if_neg hp]
      exact buildRowAux_ne_crash r r.pos0 none
    · intro hbad
      rw [hsplit] at hbad
      simp only [List.headI] at hbad
      unfold buildRow
      rw [if_neg hp]
      exact buildRowAux_skip_of_bad_date r r.pos0 none hbad

/-- C10 witness: a pipe-free token that rearranges into an unparseable
date is skipped, not crashed on. -/
theorem claim_C10_witness :
    buildRow ⟨"99.99.9999", "t", "x", "y"⟩ ≠ .crash ∧
    buildRow ⟨"99.99.9999", "t", "x", "y"⟩ = .skipped :=
  ⟨(claim_C10_amended ⟨"99.99.9999", "t", "x", "y"⟩ (by decide)).1,
    (claim_C10_amended ⟨"99.99.9999", "t", "x", "y"⟩ (by decide)).2
      (by decide)⟩

end CskaIcs
